import Mathlib

/-!
Verification of the query-interpretation backend (`src/backend/llm_utils.py`,
`src/backend/app.py`).

The embedding models Python dicts produced by `json.loads` as association
lists of `String × JVal` (insertion order preserved, duplicate keys collapsed
to the last value at the first position, as CPython dicts do), Python numbers
as exact rationals (`ℚ`; the binary-float rounding of CPython is out of the
modeled scope and is noted where it could matter), and the fallible paths of
`parse_query` (`requests` transport errors, `raise_for_status`, shape errors
on the response, and the `TypeError` that the feet conversion can raise) as
`Option`/explicit outcome values feeding the surrounding `try/except` blocks.
-/

attribute [local semireducible] Rat.mul Rat.add Rat.inv Rat.sub

/-- A JSON value as produced by Python's `json.loads`: `null`, booleans,
numbers (modeled as exact rationals), strings, arrays and objects. -/
inductive JVal where
  | jnull : JVal
  | jbool : Bool → JVal
  | jnum : ℚ → JVal
  | jstr : String → JVal
  | jarr : List JVal → JVal
  | jobj : List (String × JVal) → JVal

open JVal

/-- Dict lookup (`d[k]` / `d.get(k)`): the value at the first binding of `k`. -/
def objGet (kvs : List (String × JVal)) (k : String) : Option JVal :=
  match kvs with
  | [] => none
  | (k1, v1) :: rest => if k1 = k then some v1 else objGet rest k

/-- Dict assignment (`d[k] = v`): replace the value in place when the key is
bound, keeping its position, else append the new binding (CPython dict order). -/
def objInsert (kvs : List (String × JVal)) (k : String) (v : JVal) :
    List (String × JVal) :=
  match kvs with
  | [] => [(k, v)]
  | (k1, v1) :: rest => if k1 = k then (k, v) :: rest else (k1, v1) :: objInsert rest k v

/-- The opening brace character, kept out of literals. -/
def lbrace : Char := Char.ofNat 123

/-- The closing brace character, kept out of literals. -/
def rbrace : Char := Char.ofNat 125

/-- State machine for `re.findall` with the non-greedy brace pattern and
DOTALL: outside any match (`none`) we scan for an opening brace; inside a
match (`some acc`, collected characters reversed) any character other than a
closing brace, line breaks included, is content; the first closing brace ends
the match, and scanning resumes after it.  An opening brace never followed by
a closing one matches nothing. -/
def scanAux : List Char → Option (List Char) → List (List Char)
  | [], _ => []
  | c :: rest, none =>
    if c = lbrace then scanAux rest (some []) else scanAux rest none
  | c :: rest, some acc =>
    if c = rbrace then (lbrace :: acc.reverse ++ [rbrace]) :: scanAux rest none
    else scanAux rest (some (c :: acc))

/-- `re.findall` of the non-greedy brace pattern with DOTALL over the
generated text (`llm_utils.py` line 72): the non-overlapping brace-delimited
candidate blocks, in order of appearance. -/
def findBlocks (cs : List Char) : List (List Char) := scanAux cs none

/-- JSON whitespace accepted by Python's `json` module. -/
def isJsonWs (c : Char) : Bool :=
  c = ' ' || c = '\t' || c = '\n' || c = Char.ofNat 13

/-- Skip JSON whitespace. -/
def skipWs (cs : List Char) : List Char := cs.dropWhile isJsonWs

/-- Value of one hexadecimal digit. -/
def hexVal (c : Char) : Option Nat :=
  let n := c.toNat
  if 48 ≤ n ∧ n ≤ 57 then some (n - 48)
  else if 97 ≤ n ∧ n ≤ 102 then some (n - 87)
  else if 65 ≤ n ∧ n ≤ 70 then some (n - 55)
  else none

/-- Value of a four-digit hexadecimal escape. -/
def hex4 (a b c d : Char) : Option Nat :=
  match hexVal a, hexVal b, hexVal c, hexVal d with
  | some x, some y, some z, some w => some (((x * 16 + y) * 16 + z) * 16 + w)
  | _, _, _, _ => none

/-- Single-character JSON escapes. -/
def escChar (e : Char) : Option Char :=
  if e = '"' then some '"'
  else if e = '\\' then some '\\'
  else if e = '/' then some '/'
  else if e = 'b' then some (Char.ofNat 8)
  else if e = 'f' then some (Char.ofNat 12)
  else if e = 'n' then some '\n'
  else if e = 'r' then some (Char.ofNat 13)
  else if e = 't' then some '\t'
  else none

/-- Body of a JSON string literal, after the opening quote: returns the
decoded characters and the rest of the input after the closing quote.  Raw
control characters are rejected, as in Python's strict mode; `\uXXXX` escapes
are decoded directly (astral characters via surrogate pairs are outside the
modeled scope). -/
def parseStrAux : List Char → Option (List Char × List Char)
  | [] => none
  | c :: rest =>
    if c = '"' then some ([], rest)
    else if c = '\\' then
      match rest with
      | [] => none
      | e :: rest2 =>
        if e = 'u' then
          match rest2 with
          | a :: b :: c2 :: d :: rest3 =>
            match hex4 a b c2 d with
            | none => none
            | some n =>
              match parseStrAux rest3 with
              | none => none
              | some (s, r) => some (Char.ofNat n :: s, r)
          | _ => none
        else
          match escChar e with
          | none => none
          | some ec =>
            match parseStrAux rest2 with
            | none => none
            | some (s, r) => some (ec :: s, r)
    else if c.toNat < 32 then none
    else
      match parseStrAux rest with
      | none => none
      | some (s, r) => some (c :: s, r)

/-- Numeric value of a run of decimal digits. -/
def digitsToNat (cs : List Char) : Nat :=
  cs.foldl (fun a c => 10 * a + (c.toNat - 48)) 0

/-- Optional exponent part of a JSON number; on a malformed exponent the
characters are left unconsumed, matching the scanner regex of Python's `json`. -/
def parseExp (cs : List Char) : Int × List Char :=
  match cs with
  | [] => (0, cs)
  | c :: r =>
    if c = 'e' || c = 'E' then
      match r with
      | '+' :: r2 =>
        match r2.span Char.isDigit with
        | ([], _) => (0, cs)
        | (ds, r3) => ((digitsToNat ds : Int), r3)
      | '-' :: r2 =>
        match r2.span Char.isDigit with
        | ([], _) => (0, cs)
        | (ds, r3) => (-(digitsToNat ds : Int), r3)
      | _ =>
        match r.span Char.isDigit with
        | ([], _) => (0, cs)
        | (ds, r3) => ((digitsToNat ds : Int), r3)
    else (0, cs)

/-- A JSON number at the head of the input, per the scanner regex of Python's
`json`: optional minus, integer part with the leading-zero rule, optional
fraction and exponent (left unconsumed when malformed).  The special
constants NaN and Infinity that CPython additionally accepts have no rational
counterpart and are outside the modeled scope. -/
def parseNum (cs : List Char) : Option (ℚ × List Char) :=
  let (neg, cs1) :=
    match cs with
    | '-' :: r => (true, r)
    | _ => (false, cs)
  match cs1 with
  | [] => none
  | c :: rest =>
    if !c.isDigit then none
    else
      let (ids, cs2) := if c = '0' then ([c], rest) else cs1.span Char.isDigit
      let (fracDigits, cs3) :=
        match cs2 with
        | '.' :: r2 =>
          match r2.span Char.isDigit with
          | ([], _) => (([] : List Char), cs2)
          | (ds, r3) => (ds, r3)
        | _ => (([] : List Char), cs2)
      let (expVal, cs4) := parseExp cs3
      let mantissa : ℚ :=
        (digitsToNat ids : ℚ) + (digitsToNat fracDigits : ℚ) / ((10 : ℚ) ^ fracDigits.length)
      some ((if neg then -mantissa else mantissa) * (10 : ℚ) ^ expVal, cs4)

/-- Collapse duplicate object keys as CPython's `json` does when building the
dict pair by pair: the last value wins, at the position of the first binding. -/
def dedupPairs (ps : List (String × JVal)) : List (String × JVal) :=
  ps.foldl (fun acc kv => objInsert acc kv.1 kv.2) []

mutual

/-- A JSON value at the head of the input (no leading whitespace), with the
rest of the input; `none` models `json.JSONDecodeError`.  The fuel argument
bounds the recursion depth and is chosen large enough in `loadsL`. -/
def parseVal : Nat → List Char → Option (JVal × List Char)
  | 0, _ => none
  | fuel + 1, cs =>
    match cs with
    | 'n' :: 'u' :: 'l' :: 'l' :: rest => some (jnull, rest)
    | 't' :: 'r' :: 'u' :: 'e' :: rest => some (jbool true, rest)
    | 'f' :: 'a' :: 'l' :: 's' :: 'e' :: rest => some (jbool false, rest)
    | '"' :: rest =>
      match parseStrAux rest with
      | some (s, r) => some (jstr (String.mk s), r)
      | none => none
    | '[' :: rest =>
      match skipWs rest with
      | ']' :: r => some (jarr [], r)
      | rest1 =>
        match parseArrItems fuel rest1 with
        | some (xs, r) => some (jarr xs, r)
        | none => none
    | c :: rest =>
      if c = lbrace then
        match skipWs rest with
        | r0 =>
          if r0.head? = some rbrace then some (jobj [], r0.tail)
          else
            match parseObjItems fuel r0 with
            | some (kvs, r) => some (jobj (dedupPairs kvs), r)
            | none => none
      else
        match parseNum cs with
        | some (q, r) => some (jnum q, r)
        | none => none
    | [] => none

/-- One or more comma-separated array items followed by the closing bracket. -/
def parseArrItems : Nat → List Char → Option (List JVal × List Char)
  | 0, _ => none
  | fuel + 1, cs =>
    match parseVal fuel cs with
    | none => none
    | some (v, r) =>
      match skipWs r with
      | ',' :: r2 =>
        match parseArrItems fuel (skipWs r2) with
        | some (vs, r3) => some (v :: vs, r3)
        | none => none
      | ']' :: r2 => some ([v], r2)
      | _ => none

/-- One or more comma-separated `"key": value` pairs followed by the closing
brace (detected as a character, not matched as a literal). -/
def parseObjItems : Nat → List Char → Option (List (String × JVal) × List Char)
  | 0, _ => none
  | fuel + 1, cs =>
    match cs with
    | '"' :: rest =>
      match parseStrAux rest with
      | none => none
      | some (k, r1) =>
        match skipWs r1 with
        | ':' :: r2 =>
          match parseVal fuel (skipWs r2) with
          | none => none
          | some (v, r3) =>
            match skipWs r3 with
            | ',' :: r4 =>
              match parseObjItems fuel (skipWs r4) with
              | some (kvs, r5) => some ((String.mk k, v) :: kvs, r5)
              | none => none
            | r4 =>
              if r4.head? = some rbrace then some ([(String.mk k, v)], r4.tail)
              else none
        | _ => none
    | _ => none

end

/-- `json.loads` on a candidate block (a list of characters): skip surrounding
whitespace, parse one JSON value, and require the input to be fully consumed. -/
def loadsL (cs : List Char) : Option JVal :=
  match parseVal (2 * cs.length + 2) (skipWs cs) with
  | some (v, r) => if (skipWs r).isEmpty then some v else none
  | none => none

/-- Whitespace stripped by Python's `str.strip()` (ASCII portion; Unicode
whitespace is outside the modeled scope). -/
def isPyWs (c : Char) : Bool :=
  c = ' ' || c = '\t' || c = '\n' || c = Char.ofNat 13 || c = Char.ofNat 11 || c = Char.ofNat 12

/-- `str.strip()`: drop whitespace from both ends. -/
def pyStrip (cs : List Char) : List Char :=
  ((cs.dropWhile isPyWs).reverse.dropWhile isPyWs).reverse

/-- Scan for the four characters of "feet" as a contiguous run. -/
def hasFeet : List Char → Bool
  | 'f' :: 'e' :: 'e' :: 't' :: _ => true
  | _ :: rest => hasFeet rest
  | [] => false

/-- `"feet" in query.lower()` (`llm_utils.py` line 80): case-insensitive
substring test, via ASCII lowercasing as Python's `str.lower` does on ASCII. -/
def containsFeet (q : String) : Bool := hasFeet (q.data.map Char.toLower)

/-- Python's `str.isdigit()` on ASCII text: non-empty and all decimal digits
(Unicode digit categories are outside the modeled scope). -/
def pyIsDigit (s : String) : Bool := !s.data.isEmpty && s.data.all Char.isDigit

/-- Round to the nearest integer, ties to the even integer, as CPython's
`round` does. -/
def roundHalfEven (q : ℚ) : Int :=
  let f : Int := q.floor
  let r : ℚ := q - (f : ℚ)
  if r < 1 / 2 then f
  else if 1 / 2 < r then f + 1
  else if f % 2 = 0 then f else f + 1

/-- `round(x, 2)` on the exact rational value: round `100 * x` half-to-even
and divide back.  (CPython rounds the binary double nearest to `x`; on the
values reachable here the exact-rational result coincides.) -/
def pyRound2 (q : ℚ) : ℚ := ((roundHalfEven (q * 100) : Int) : ℚ) / 100

/-- `round(value * 0.3048, 2)` (`llm_utils.py` line 81) by the type of
`value`: numbers multiply, booleans are ints in Python (`True` is 1), and a
string, null, array or object raises `TypeError` (modeled as `none`), which
the surrounding `except Exception` turns into the empty dict. -/
def pyMulRound (v : JVal) : Option ℚ :=
  match v with
  | jnum q => some (pyRound2 (q * (3048 / 10000)))
  | jbool b => some (pyRound2 ((if b then 1 else 0) * (3048 / 10000)))
  | _ => none

/-- `parsed_filter["attribute"] == a`: true exactly when the key is bound to
the string `a` (Python `==` between a non-string value and a `str` is false;
a missing key read through `.get` compares as `None == a`, also false). -/
def isAttr (kvs : List (String × JVal)) (a : String) : Bool :=
  match objGet kvs "attribute" with
  | some (jstr s) => s == a
  | _ => false

/-- `all(k in parsed_filter for k in ("attribute", "operator", "value"))`
(`llm_utils.py` line 78): key presence only — the bound values, `null`
included, are not examined. -/
def hasAllKeys (kvs : List (String × JVal)) : Bool :=
  (objGet kvs "attribute").isSome && (objGet kvs "operator").isSome &&
    (objGet kvs "value").isSome

/-- The feet-to-meters branch (`llm_utils.py` lines 80-81): when the query
mentions "feet" and the attribute is the string "height", replace `value` by
`round(value * 0.3048, 2)`; `none` models the `TypeError`/`KeyError` that
escapes to the outer handler. -/
def feetStep (query : String) (kvs : List (String × JVal)) :
    Option (List (String × JVal)) :=
  if containsFeet query && isAttr kvs "height" then
    match objGet kvs "value" with
    | some v =>
      match pyMulRound v with
      | some q => some (objInsert kvs "value" (jnum q))
      | none => none
    | none => none
  else some kvs

/-- The zoning branch (`llm_utils.py` lines 84-85): when the attribute is the
string "zoning" and `value` is a string of digits, replace it by the integer
it denotes; otherwise leave the dict unchanged.  `int` on an ASCII digit
string cannot raise. -/
def zoningStep (kvs : List (String × JVal)) : List (String × JVal) :=
  if isAttr kvs "zoning" then
    match objGet kvs "value" with
    | some (jstr s) =>
      if pyIsDigit s then objInsert kvs "value" (jnum (digitsToNat s.data : ℚ))
      else kvs
    | _ => kvs
  else kvs

/-- Outcome of the candidate loop of `parse_query`: a dict was returned, an
exception escaped to the outer handler, or the loop ran out of candidates. -/
inductive LoopRes where
  | found : List (String × JVal) → LoopRes
  | raised : LoopRes
  | nofilter : LoopRes

/-- The candidate loop (`llm_utils.py` lines 73-94): for each block in order,
`json.loads` it (a `JSONDecodeError` skips to the next block); when all three
required keys are present, run the feet and zoning normalizations and return
the dict; a block missing a key falls through to the next iteration.  The
`some _` row is unreachable for blocks produced by `findBlocks`, which always
start with an opening brace and hence parse to objects when they parse at
all. -/
def processLoop (query : String) : List (List Char) → LoopRes
  | [] => LoopRes.nofilter
  | m :: rest =>
    match loadsL m with
    | some (jobj kvs) =>
      if hasAllKeys kvs then
        match feetStep query kvs with
        | some d => LoopRes.found (zoningStep d)
        | none => LoopRes.raised
      else processLoop query rest
    | some _ => processLoop query rest
    | none => processLoop query rest

/-- Outcome of the collaborator call as seen by `parse_query`: either some
exception before a usable body existed (`requests.post` failing,
`raise_for_status` on a non-success status, an unparsable response body), or
a parsed JSON body. -/
inductive LLMOutcome where
  | transportError : LLMOutcome
  | response : JVal → LLMOutcome

/-- `full_json[0].get("generated_text", "").strip()` (`llm_utils.py` line
69): succeeds only when the body is an array whose first element is an
object; a missing key defaults to the empty string; `.strip()` on a
non-string value raises (`none`). -/
def getGeneratedText : JVal → Option (List Char)
  | jarr (jobj kvs :: _) =>
    match objGet kvs "generated_text" with
    | none => some []
    | some (jstr s) => some (pyStrip s.data)
    | some _ => none
  | _ => none

/-- `parse_query` (`llm_utils.py` lines 36-98): extract the generated text,
scan it for brace-delimited candidate blocks, and run the candidate loop.
Every failure path — transport error, malformed response shape, an exception
escaping the loop, or no qualifying candidate — returns the empty dict. -/
def parse_query (query : String) (out : LLMOutcome) : List (String × JVal) :=
  match out with
  | LLMOutcome.transportError => []
  | LLMOutcome.response body =>
    match getGeneratedText body with
    | none => []
    | some text =>
      match processLoop query (findBlocks text) with
      | LoopRes.found d => d
      | LoopRes.raised => []
      | LoopRes.nofilter => []

/-- Python truthiness of a JSON-derived value: `None`, `False`, zero, and
empty strings, lists and dicts are falsy. -/
def pyTruthy : JVal → Bool
  | jnull => false
  | jbool b => b
  | jnum q => decide (q ≠ 0)
  | jstr s => !s.data.isEmpty
  | jarr xs => !xs.isEmpty
  | jobj kvs => !kvs.isEmpty

/-- Truthiness of `d.get(k)`: a missing key reads as `None`, which is falsy. -/
def truthyOpt : Option JVal → Bool
  | none => false
  | some v => pyTruthy v

/-- `value is not None` after `value = llm_response.get("value")`: the key is
bound and not to JSON null. -/
def notNoneOpt : Option JVal → Bool
  | none => false
  | some jnull => false
  | some _ => true

/-- The validation of `query_buildings` (`app.py` line 70): the parsed filter
is served exactly when `attribute` and `operator` are truthy and `value` is
present and not null. -/
def okCond (r : List (String × JVal)) : Bool :=
  truthyOpt (objGet r "attribute") && truthyOpt (objGet r "operator") &&
    notNoneOpt (objGet r "value")

/-- The response of `query_buildings` for a given LLM result (`app.py` lines
70-77): status 200 with the filter as body, or status 400 with the fixed
error object. -/
def respond_filter (r : List (String × JVal)) : Nat × JVal :=
  if okCond r then (200, jobj r)
  else (400, jobj [("error", jstr "Invalid LLM output")])

/-- `query_buildings` (`app.py` lines 59-77): read `query` from the JSON body
with `""` as default, call `parse_query`, validate, respond.  A non-string
`query` value reaches `query.lower()` inside the try of `parse_query` and
raises there, so `parse_query` yields the empty dict on that path. -/
def query_buildings (body : List (String × JVal)) (out : LLMOutcome) :
    Nat × JVal :=
  match objGet body "query" with
  | none => respond_filter (parse_query "" out)
  | some (jstr s) => respond_filter (parse_query s out)
  | some _ => respond_filter []

/-- The process-wide state of `app.py`: the building data loaded once at
startup. -/
structure ServerState where
  building_data : JVal

/-- `json.load` of the fixed GeoJSON file at startup (`app.py` line 51),
applied to the already-parsed document. -/
def load_building_data (doc : JVal) : ServerState := ServerState.mk doc

/-- `get_buildings` (`app.py` lines 54-57): serve the in-memory document. -/
def get_buildings (st : ServerState) : JVal := st.building_data

/-- A request the app can route. -/
inductive Request where
  | getBuildings : Request
  | postQuery : List (String × JVal) → LLMOutcome → Request

/-- Handle one request: the state is threaded to make any mutation of the
stored document observable; neither handler produces a new state. -/
def handle (st : ServerState) (r : Request) : ServerState × Nat × JVal :=
  match r with
  | Request.getBuildings => (st, 200, get_buildings st)
  | Request.postQuery body out => (st, query_buildings body out)

/-- Run a sequence of requests, threading the server state. -/
def runRequests (st : ServerState) : List Request → ServerState
  | [] => st
  | r :: rs => runRequests (handle st r).1 rs

/-- Spec-side characterization for the candidate extraction (from the spec's
words): a final segment of the text in which no opening brace is ever
followed by a closing one, so the pattern matches nothing in it. -/
def noBlockIn (g : List Char) : Prop :=
  ∀ pre suf, g = pre ++ lbrace :: suf → rbrace ∉ suf

/-- Spec-side characterization (from the spec's words): `BlocksDecomp s bs`
holds when `s` splits into gaps and blocks such that each block starts at an
opening brace, ends at the next following closing brace (no closing brace in
its interior, line breaks allowed anywhere), blocks appear in order and do
not overlap, each gap before a block has no opening brace (no earlier match
was missed), and the final gap admits no match at all. -/
inductive BlocksDecomp : List Char → List (List Char) → Prop where
  | last : ∀ g, noBlockIn g → BlocksDecomp g []
  | step : ∀ g inner s bs, lbrace ∉ g → rbrace ∉ inner → BlocksDecomp s bs →
      BlocksDecomp (g ++ lbrace :: (inner ++ rbrace :: s))
        ((lbrace :: inner ++ [rbrace]) :: bs)

lemma objGet_objInsert_self (kvs : List (String × JVal)) (k : String) (v : JVal) :
    objGet (objInsert kvs k v) k = some v := by
  induction kvs with
  | nil => simp [objInsert, objGet]
  | cons kv rest ih =>
    obtain ⟨k1, v1⟩ := kv
    by_cases h : k1 = k
    · simp [objInsert, h, objGet]
    · simp [objInsert, h, objGet, ih]

lemma objGet_objInsert_ne (kvs : List (String × JVal)) (k k' : String) (v : JVal)
    (h : k ≠ k') : objGet (objInsert kvs k v) k' = objGet kvs k' := by
  induction kvs with
  | nil => simp [objInsert, objGet, h]
  | cons kv rest ih =>
    obtain ⟨k1, v1⟩ := kv
    by_cases h1 : k1 = k
    · subst h1
      simp only [objInsert, if_pos rfl]
      simp [objGet, h]
    · simp only [objInsert, if_neg h1]
      by_cases h2 : k1 = k'
      · simp [objGet, h2]
      · simp [objGet, h2, ih]

lemma hasAllKeys_objInsert_value (kvs : List (String × JVal)) (v : JVal)
    (h : hasAllKeys kvs = true) : hasAllKeys (objInsert kvs "value" v) = true := by
  simp only [hasAllKeys, Bool.and_eq_true] at h ⊢
  refine ⟨⟨?_, ?_⟩, ?_⟩
  · rw [objGet_objInsert_ne kvs "value" "attribute" v (by decide)]
    exact h.1.1
  · rw [objGet_objInsert_ne kvs "value" "operator" v (by decide)]
    exact h.1.2
  · rw [objGet_objInsert_self]
    rfl

lemma feetStep_hasAllKeys (q : String) (kvs d : List (String × JVal))
    (hf : feetStep q kvs = some d) (h : hasAllKeys kvs = true) :
    hasAllKeys d = true := by
  unfold feetStep at hf
  split at hf
  · split at hf
    · split at hf
      · injection hf with hd
        subst hd
        exact hasAllKeys_objInsert_value kvs _ h
      · exact Option.noConfusion hf
    · exact Option.noConfusion hf
  · injection hf with hd
    subst hd
    exact h

lemma zoningStep_hasAllKeys (kvs : List (String × JVal))
    (h : hasAllKeys kvs = true) : hasAllKeys (zoningStep kvs) = true := by
  unfold zoningStep
  repeat' split
  all_goals first
  | exact h
  | exact hasAllKeys_objInsert_value kvs _ h

lemma processLoop_found_hasAllKeys (q : String) (ms : List (List Char))
    (d : List (String × JVal)) (h : processLoop q ms = LoopRes.found d) :
    hasAllKeys d = true := by
  induction ms with
  | nil => exact absurd h (by simp [processLoop])
  | cons m rest ih =>
    unfold processLoop at h
    split at h
    · split at h
      · split at h
        · injection h with hd
          subst hd
          rename_i d1 hf
          exact zoningStep_hasAllKeys d1
            (feetStep_hasAllKeys q _ d1 hf (by assumption))
        · exact LoopRes.noConfusion h
      · exact ih h
    · exact ih h
    · exact ih h

lemma scanAux_gap (g cs : List Char) (hg : lbrace ∉ g) :
    scanAux (g ++ cs) none = scanAux cs none := by
  induction g with
  | nil => rfl
  | cons c g1 ih =>
    have hc : c ≠ lbrace := fun h => hg (h ▸ List.mem_cons_self c g1)
    have hg1 : lbrace ∉ g1 := fun h => hg (List.mem_cons_of_mem c h)
    simp only [List.cons_append, scanAux, if_neg hc]
    exact ih hg1

lemma scanAux_no_close (cs : List Char) (acc : List Char) (h : rbrace ∉ cs) :
    scanAux cs (some acc) = [] := by
  induction cs generalizing acc with
  | nil => rfl
  | cons c rest ih =>
    have hc : c ≠ rbrace := fun he => h (he ▸ List.mem_cons_self c rest)
    have hr : rbrace ∉ rest := fun he => h (List.mem_cons_of_mem c he)
    simp only [scanAux, if_neg hc]
    exact ih (c :: acc) hr

lemma scanAux_inside (inner s : List Char) (hi : rbrace ∉ inner) (acc : List Char) :
    scanAux (inner ++ rbrace :: s) (some acc) =
      (lbrace :: (acc.reverse ++ inner) ++ [rbrace]) :: scanAux s none := by
  induction inner generalizing acc with
  | nil => simp [scanAux]
  | cons c inner1 ih =>
    have hc : c ≠ rbrace := fun he => hi (he ▸ List.mem_cons_self c inner1)
    have hi1 : rbrace ∉ inner1 := fun he => hi (List.mem_cons_of_mem c he)
    simp only [List.cons_append, scanAux, if_neg hc, List.append_eq]
    rw [ih hi1 (c :: acc)]
    simp

lemma findBlocks_gap (g cs : List Char) (hg : lbrace ∉ g) :
    findBlocks (g ++ cs) = findBlocks cs := scanAux_gap g cs hg

lemma findBlocks_block (inner s : List Char) (hi : rbrace ∉ inner) :
    findBlocks (lbrace :: (inner ++ rbrace :: s)) =
      (lbrace :: inner ++ [rbrace]) :: findBlocks s := by
  show scanAux (lbrace :: (inner ++ rbrace :: s)) none = _
  simp only [scanAux, if_pos rfl]
  rw [scanAux_inside inner s hi []]
  simp [findBlocks]

lemma noBlockIn_findBlocks (g : List Char) (hg : noBlockIn g) : findBlocks g = [] := by
  induction g with
  | nil => rfl
  | cons c g1 ih =>
    by_cases hc : c = lbrace
    · subst hc
      have h1 : rbrace ∉ g1 := hg [] g1 rfl
      show scanAux (lbrace :: g1) none = []
      simp only [scanAux, if_pos rfl]
      exact scanAux_no_close g1 [] h1
    · have h1 : noBlockIn g1 := by
        intro pre suf he
        exact hg (c :: pre) suf (by rw [he]; rfl)
      show scanAux (c :: g1) none = []
      simp only [scanAux, if_neg hc]
      exact ih h1

lemma blocksDecomp_eq {s : List Char} {bs : List (List Char)}
    (h : BlocksDecomp s bs) : findBlocks s = bs := by
  induction h with
  | last g hg => exact noBlockIn_findBlocks g hg
  | step g inner s1 bs1 hg hi hrec ih =>
    rw [findBlocks_gap g _ hg, findBlocks_block inner s1 hi, ih]

lemma blocksDecomp_cons_ne {c : Char} {s : List Char} {bs : List (List Char)}
    (hc : c ≠ lbrace) (h : BlocksDecomp s bs) : BlocksDecomp (c :: s) bs := by
  cases h with
  | last g hg =>
    apply BlocksDecomp.last
    intro pre suf he
    cases pre with
    | nil =>
      have h5 : c :: s = lbrace :: suf := he
      injection h5 with ha hb
      exact absurd ha hc
    | cons p pre1 =>
      injection he with h3 h4
      exact hg pre1 suf h4
  | step g inner s1 bs1 hg hi hrec =>
    have he : c :: (g ++ lbrace :: (inner ++ rbrace :: s1)) =
        (c :: g) ++ lbrace :: (inner ++ rbrace :: s1) := rfl
    rw [he]
    apply BlocksDecomp.step (c :: g) inner s1 bs1 ?_ hi hrec
    intro hm
    rcases List.mem_cons.mp hm with h1 | h1
    · exact hc h1.symm
    · exact hg h1

lemma firstRbraceSplit (cs : List Char) (h : rbrace ∈ cs) :
    ∃ a b, cs = a ++ rbrace :: b ∧ rbrace ∉ a := by
  induction cs with
  | nil => exact absurd h (by simp)
  | cons c rest ih =>
    by_cases hc : c = rbrace
    · exact ⟨[], rest, by rw [hc]; rfl, by simp⟩
    · have h1 : rbrace ∈ rest := by
        rcases List.mem_cons.mp h with h2 | h2
        · exact absurd h2.symm hc
        · exact h2
      obtain ⟨a, b, hab, ha⟩ := ih h1
      refine ⟨c :: a, b, by rw [hab]; rfl, ?_⟩
      intro hm
      rcases List.mem_cons.mp hm with h2 | h2
      · exact hc h2.symm
      · exact ha h2

lemma blocksDecomp_findBlocks (s : List Char) : BlocksDecomp s (findBlocks s) := by
  generalize hn : s.length = n
  induction n using Nat.strong_induction_on generalizing s with
  | _ n ih =>
    cases s with
    | nil =>
      exact BlocksDecomp.last [] (by intro pre suf he; simp at he)
    | cons c rest =>
      by_cases hc : c = lbrace
      · subst hc
        by_cases hr : rbrace ∈ rest
        · obtain ⟨a, b, hab, ha⟩ := firstRbraceSplit rest hr
          subst hab
          rw [findBlocks_block a b ha]
          have hlen : b.length < n := by
            rw [← hn]
            simp [List.length_append]
            omega
          have ihb := ih b.length hlen b rfl
          have := BlocksDecomp.step [] a b (findBlocks b) (by simp) ha ihb
          simpa using this
        · have hfb : findBlocks (lbrace :: rest) = [] := by
            show scanAux (lbrace :: rest) none = []
            simp only [scanAux, if_pos rfl]
            exact scanAux_no_close rest [] hr
          rw [hfb]
          apply BlocksDecomp.last
          intro pre suf he
          cases pre with
          | nil =>
            have : rest = suf := by
              have := he
              injection this
            rw [← this]
            exact hr
          | cons p pre1 =>
            have h2 : rest = pre1 ++ lbrace :: suf := by
              have := he
              injection this with h3 h4
            intro hm
            apply hr
            rw [h2]
            exact List.mem_append.mpr (Or.inr (List.mem_cons_of_mem _ hm))
      · have hfb : findBlocks (c :: rest) = findBlocks rest := by
          show scanAux (c :: rest) none = _
          simp only [scanAux, if_neg hc]
          rfl
        rw [hfb]
        have hlen : rest.length < n := by rw [← hn]; simp
        exact blocksDecomp_cons_ne hc (ih rest.length hlen rest rfl)

lemma isAttr_of_objGet (kvs : List (String × JVal)) (s : String)
    (h : objGet kvs "attribute" = some (jstr s)) (a : String) :
    isAttr kvs a = (s == a) := by
  unfold isAttr
  rw [h]

lemma isAttr_objInsert_value (kvs : List (String × JVal)) (v : JVal) (a : String) :
    isAttr (objInsert kvs "value" v) a = isAttr kvs a := by
  unfold isAttr
  rw [objGet_objInsert_ne kvs "value" "attribute" v (by decide)]

lemma feetStep_no_feet (q : String) (kvs : List (String × JVal))
    (h : containsFeet q = false) : feetStep q kvs = some kvs := by
  simp [feetStep, h]

lemma feetStep_not_height (q : String) (kvs : List (String × JVal))
    (h : isAttr kvs "height" = false) : feetStep q kvs = some kvs := by
  simp [feetStep, h]

lemma feetStep_conv_num (q : String) (kvs : List (String × JVal)) (v : ℚ)
    (h7 : containsFeet q = true) (hA : isAttr kvs "height" = true)
    (h6 : objGet kvs "value" = some (jnum v)) :
    feetStep q kvs =
      some (objInsert kvs "value" (jnum (pyRound2 (v * (3048 / 10000))))) := by
  simp [feetStep, h7, hA, h6, pyMulRound]

lemma feetStep_conv_str (q : String) (kvs : List (String × JVal)) (s : String)
    (h7 : containsFeet q = true) (hA : isAttr kvs "height" = true)
    (h6 : objGet kvs "value" = some (jstr s)) :
    feetStep q kvs = none := by
  simp [feetStep, h7, hA, h6, pyMulRound]

lemma zoningStep_not_zoning (kvs : List (String × JVal))
    (h : isAttr kvs "zoning" = false) : zoningStep kvs = kvs := by
  simp [zoningStep, h]

lemma zoningStep_zoning_str (kvs : List (String × JVal)) (s : String)
    (hA : isAttr kvs "zoning" = true) (h6 : objGet kvs "value" = some (jstr s)) :
    zoningStep kvs =
      (if pyIsDigit s then objInsert kvs "value" (jnum (digitsToNat s.data : ℚ))
       else kvs) := by
  simp [zoningStep, hA, h6]

lemma zoningStep_value_null (kvs : List (String × JVal))
    (h : objGet kvs "value" = some jnull) : zoningStep kvs = kvs := by
  simp [zoningStep, h]

lemma processLoop_cons_skip_parse (q : String) (m : List Char)
    (rest : List (List Char)) (h : loadsL m = none) :
    processLoop q (m :: rest) = processLoop q rest := by
  simp [processLoop, h]

lemma processLoop_cons_skip_keys (q : String) (m : List Char)
    (rest : List (List Char)) (kvs : List (String × JVal))
    (h3 : loadsL m = some (jobj kvs)) (h4 : hasAllKeys kvs = false) :
    processLoop q (m :: rest) = processLoop q rest := by
  simp [processLoop, h3, h4]

lemma processLoop_cons_found (q : String) (m : List Char)
    (rest : List (List Char)) (kvs d : List (String × JVal))
    (h3 : loadsL m = some (jobj kvs)) (h4 : hasAllKeys kvs = true)
    (hf : feetStep q kvs = some d) :
    processLoop q (m :: rest) = LoopRes.found (zoningStep d) := by
  simp [processLoop, h3, h4, hf]

lemma processLoop_cons_raised (q : String) (m : List Char)
    (rest : List (List Char)) (kvs : List (String × JVal))
    (h3 : loadsL m = some (jobj kvs)) (h4 : hasAllKeys kvs = true)
    (hf : feetStep q kvs = none) :
    processLoop q (m :: rest) = LoopRes.raised := by
  simp [processLoop, h3, h4, hf]

lemma parse_query_of_found (q : String) (body : JVal) (cs : List Char)
    (d : List (String × JVal)) (h1 : getGeneratedText body = some cs)
    (hp : processLoop q (findBlocks cs) = LoopRes.found d) :
    parse_query q (LLMOutcome.response body) = d := by
  simp [parse_query, h1, hp]

lemma parse_query_of_raised (q : String) (body : JVal) (cs : List Char)
    (h1 : getGeneratedText body = some cs)
    (hp : processLoop q (findBlocks cs) = LoopRes.raised) :
    parse_query q (LLMOutcome.response body) = [] := by
  simp [parse_query, h1, hp]

/-- C1 (counterexample): `parse_query` does return a candidate whose `value`
is null.  The loop checks only key presence, so for the reply embedding a
block with `"value": null` and a query not mentioning feet, the candidate is
returned with its null value intact — contradicting the claim that such a
candidate is never returned. -/
theorem parse_query_null_value_cex :
    parse_query "highlight tall" (LLMOutcome.response (jarr [jobj
      [("generated_text",
        jstr "\x7b\"attribute\": \"height\", \"operator\": \">\", \"value\": null\x7d")]])) =
      [("attribute", jstr "height"), ("operator", jstr ">"), ("value", jnull)] := rfl

/-- C1 (amended): a candidate block is accepted by `parse_query` as soon as
the three keys `attribute`, `operator`, `value` are present, regardless of
`value` being null; when the feet conversion does not fire, a null-valued
candidate is returned unchanged.  The null check happens only in the HTTP
layer, which rejects such a result with a 400. -/
theorem parse_query_null_value_accepted (q : String) (body : JVal)
    (cs m : List Char) (rest : List (List Char)) (kvs : List (String × JVal))
    (h1 : getGeneratedText body = some cs)
    (h2 : findBlocks cs = m :: rest)
    (h3 : loadsL m = some (jobj kvs))
    (h4 : hasAllKeys kvs = true)
    (h5 : objGet kvs "value" = some jnull)
    (h6 : containsFeet q = false) :
    parse_query q (LLMOutcome.response body) = kvs := by
  have hf := feetStep_no_feet q kvs h6
  have hp := processLoop_cons_found q m rest kvs kvs h3 h4 hf
  have hz := zoningStep_value_null kvs h5
  exact (parse_query_of_found q body cs _ h1 (by rw [h2]; exact hp)).trans hz

/-- C1 (witness): a concrete null-valued candidate accepted and returned. -/
theorem parse_query_null_value_accepted_w :
    parse_query "tall ones" (LLMOutcome.response (jarr [jobj
      [("generated_text",
        jstr "\x7b\"attribute\": \"area\", \"operator\": \">\", \"value\": null\x7d")]])) =
      [("attribute", jstr "area"), ("operator", jstr ">"), ("value", jnull)] :=
  parse_query_null_value_accepted "tall ones"
    (jarr [jobj [("generated_text",
      jstr "\x7b\"attribute\": \"area\", \"operator\": \">\", \"value\": null\x7d")]])
    ("\x7b\"attribute\": \"area\", \"operator\": \">\", \"value\": null\x7d".toList)
    ("\x7b\"attribute\": \"area\", \"operator\": \">\", \"value\": null\x7d".toList)
    [] [("attribute", jstr "area"), ("operator", jstr ">"), ("value", jnull)]
    rfl rfl rfl rfl rfl rfl

/-- C2: the candidate loop examines blocks in order of appearance: a block
that fails to parse, or parses but lacks a required key, is skipped and
scanning continues with the rest; once the first block with all required keys
is reached, the result does not depend on the remaining candidates (they are
never inspected), and it is exactly the normalized form of that block. -/
theorem processLoop_first_qualifying (q : String) (m : List Char)
    (rest rest' : List (List Char)) :
    (loadsL m = none → processLoop q (m :: rest) = processLoop q rest) ∧
    (∀ kvs, loadsL m = some (jobj kvs) → hasAllKeys kvs = false →
      processLoop q (m :: rest) = processLoop q rest) ∧
    (∀ kvs, loadsL m = some (jobj kvs) → hasAllKeys kvs = true →
      processLoop q (m :: rest) = processLoop q (m :: rest')) ∧
    (∀ kvs d, loadsL m = some (jobj kvs) → hasAllKeys kvs = true →
      feetStep q kvs = some d →
      processLoop q (m :: rest) = LoopRes.found (zoningStep d)) := by
  refine ⟨processLoop_cons_skip_parse q m rest,
    fun kvs => processLoop_cons_skip_keys q m rest kvs,
    fun kvs h3 h4 => ?_,
    fun kvs d h3 h4 hf => processLoop_cons_found q m rest kvs d h3 h4 hf⟩
  cases hf : feetStep q kvs with
  | some d =>
    rw [processLoop_cons_found q m rest kvs d h3 h4 hf,
        processLoop_cons_found q m rest' kvs d h3 h4 hf]
  | none =>
    rw [processLoop_cons_raised q m rest kvs h3 h4 hf,
        processLoop_cons_raised q m rest' kvs h3 h4 hf]

/-- C2 (witness): with a qualifying first block, a junk tail and the empty
tail give the same loop outcome. -/
theorem processLoop_first_qualifying_w :
    processLoop "w2"
      ["\x7b\"attribute\": \"a\", \"operator\": \">\", \"value\": 1\x7d".toList,
       "\x7bzz\x7d".toList] =
      processLoop "w2"
        ["\x7b\"attribute\": \"a\", \"operator\": \">\", \"value\": 1\x7d".toList] :=
  (processLoop_first_qualifying "w2"
      ("\x7b\"attribute\": \"a\", \"operator\": \">\", \"value\": 1\x7d".toList)
      ["\x7bzz\x7d".toList] []).2.2.1
    [("attribute", jstr "a"), ("operator", jstr ">"), ("value", jnum 1)] rfl rfl

/-- C3: when the query contains "feet" (case-insensitive) and the first
qualifying candidate has attribute "height" and a numeric value `v`,
`parse_query` returns the candidate with `value` replaced by `v * 0.3048`
rounded to 2 decimal places. -/
theorem parse_query_feet_conversion (q : String) (body : JVal)
    (cs m : List Char) (rest : List (List Char)) (kvs : List (String × JVal))
    (v : ℚ)
    (h1 : getGeneratedText body = some cs)
    (h2 : findBlocks cs = m :: rest)
    (h3 : loadsL m = some (jobj kvs))
    (h4 : hasAllKeys kvs = true)
    (h5 : objGet kvs "attribute" = some (jstr "height"))
    (h6 : objGet kvs "value" = some (jnum v))
    (h7 : containsFeet q = true) :
    parse_query q (LLMOutcome.response body) =
      objInsert kvs "value" (jnum (pyRound2 (v * (3048 / 10000)))) := by
  have hA : isAttr kvs "height" = true := by
    rw [isAttr_of_objGet kvs "height" h5]
    rfl
  have hf := feetStep_conv_num q kvs v h7 hA h6
  have hp := processLoop_cons_found q m rest kvs _ h3 h4 hf
  have hz : zoningStep (objInsert kvs "value"
      (jnum (pyRound2 (v * (3048 / 10000))))) =
      objInsert kvs "value" (jnum (pyRound2 (v * (3048 / 10000)))) := by
    apply zoningStep_not_zoning
    rw [isAttr_objInsert_value, isAttr_of_objGet kvs "height" h5]
    rfl
  exact (parse_query_of_found q body cs _ h1 (by rw [h2]; exact hp)).trans hz

/-- C3 (witness): query "buildings over 100 feet" with the reply embedding
value 100 yields value 30.48. -/
theorem parse_query_feet_conversion_w :
    containsFeet "buildings over 100 feet" = true ∧
    parse_query "buildings over 100 feet" (LLMOutcome.response (jarr [jobj
      [("generated_text",
        jstr "\x7b\"attribute\": \"height\", \"operator\": \">\", \"value\": 100\x7d")]])) =
      [("attribute", jstr "height"), ("operator", jstr ">"),
       ("value", jnum (3048 / 100))] :=
  ⟨rfl,
    (parse_query_feet_conversion "buildings over 100 feet"
      (jarr [jobj [("generated_text",
        jstr "\x7b\"attribute\": \"height\", \"operator\": \">\", \"value\": 100\x7d")]])
      ("\x7b\"attribute\": \"height\", \"operator\": \">\", \"value\": 100\x7d".toList)
      ("\x7b\"attribute\": \"height\", \"operator\": \">\", \"value\": 100\x7d".toList)
      [] [("attribute", jstr "height"), ("operator", jstr ">"), ("value", jnum 100)]
      100 rfl rfl rfl rfl rfl rfl rfl).trans rfl⟩

/-- C4: for a qualifying candidate with attribute "zoning" and a string
value: an all-digit string is converted to the corresponding integer, any
other string is left unchanged (for every query, since the feet branch
requires attribute "height"). -/
theorem parse_query_zoning_normalization (q : String) (body : JVal)
    (cs m : List Char) (rest : List (List Char)) (kvs : List (String × JVal))
    (s : String)
    (h1 : getGeneratedText body = some cs)
    (h2 : findBlocks cs = m :: rest)
    (h3 : loadsL m = some (jobj kvs))
    (h4 : hasAllKeys kvs = true)
    (h5 : objGet kvs "attribute" = some (jstr "zoning"))
    (h6 : objGet kvs "value" = some (jstr s)) :
    parse_query q (LLMOutcome.response body) =
      (if pyIsDigit s then objInsert kvs "value" (jnum (digitsToNat s.data : ℚ))
       else kvs) := by
  have hH : isAttr kvs "height" = false := by
    rw [isAttr_of_objGet kvs "zoning" h5]
    rfl
  have hf := feetStep_not_height q kvs hH
  have hp := processLoop_cons_found q m rest kvs kvs h3 h4 hf
  have hA : isAttr kvs "zoning" = true := by
    rw [isAttr_of_objGet kvs "zoning" h5]
    rfl
  have hz := zoningStep_zoning_str kvs s hA h6
  exact (parse_query_of_found q body cs _ h1 (by rw [h2]; exact hp)).trans hz

/-- C4 (witness): zoning value "5" becomes the integer 5; zoning value
"RC-G" is left unchanged. -/
theorem parse_query_zoning_normalization_w :
    parse_query "zones" (LLMOutcome.response (jarr [jobj
      [("generated_text",
        jstr "\x7b\"attribute\": \"zoning\", \"operator\": \"==\", \"value\": \"5\"\x7d")]])) =
      [("attribute", jstr "zoning"), ("operator", jstr "=="), ("value", jnum 5)] ∧
    parse_query "zones" (LLMOutcome.response (jarr [jobj
      [("generated_text",
        jstr "\x7b\"attribute\": \"zoning\", \"operator\": \"==\", \"value\": \"RC-G\"\x7d")]])) =
      [("attribute", jstr "zoning"), ("operator", jstr "=="),
       ("value", jstr "RC-G")] :=
  ⟨(parse_query_zoning_normalization "zones"
      (jarr [jobj [("generated_text",
        jstr "\x7b\"attribute\": \"zoning\", \"operator\": \"==\", \"value\": \"5\"\x7d")]])
      ("\x7b\"attribute\": \"zoning\", \"operator\": \"==\", \"value\": \"5\"\x7d".toList)
      ("\x7b\"attribute\": \"zoning\", \"operator\": \"==\", \"value\": \"5\"\x7d".toList)
      [] [("attribute", jstr "zoning"), ("operator", jstr "=="), ("value", jstr "5")]
      "5" rfl rfl rfl rfl rfl rfl).trans rfl,
   (parse_query_zoning_normalization "zones"
      (jarr [jobj [("generated_text",
        jstr "\x7b\"attribute\": \"zoning\", \"operator\": \"==\", \"value\": \"RC-G\"\x7d")]])
      ("\x7b\"attribute\": \"zoning\", \"operator\": \"==\", \"value\": \"RC-G\"\x7d".toList)
      ("\x7b\"attribute\": \"zoning\", \"operator\": \"==\", \"value\": \"RC-G\"\x7d".toList)
      [] [("attribute", jstr "zoning"), ("operator", jstr "=="), ("value", jstr "RC-G")]
      "RC-G" rfl rfl rfl rfl rfl rfl).trans rfl⟩

/-- C5: `parse_query` never propagates a failure: whenever no candidate is
successfully found and normalized — transport error, malformed response
shape, an exception escaping the loop, or no qualifying block — the result
is the empty dict. -/
theorem parse_query_failure_empty (q : String) (out : LLMOutcome)
    (h : ∀ body cs d, out = LLMOutcome.response body →
      getGeneratedText body = some cs →
      processLoop q (findBlocks cs) ≠ LoopRes.found d) :
    parse_query q out = [] := by
  cases out with
  | transportError => rfl
  | response body =>
    cases hg : getGeneratedText body with
    | none => simp [parse_query, hg]
    | some cs =>
      cases hp : processLoop q (findBlocks cs) with
      | found d => exact absurd hp (h body cs d rfl hg)
      | raised => exact parse_query_of_raised q body cs hg hp
      | nofilter => simp [parse_query, hg, hp]

/-- C5 (witness): a transport failure yields the empty dict. -/
theorem parse_query_failure_empty_w :
    parse_query "anything" LLMOutcome.transportError = [] :=
  parse_query_failure_empty "anything" LLMOutcome.transportError
    (fun _ _ _ hbody _ => fun _ => LLMOutcome.noConfusion hbody)

/-- C6: the candidate extraction of `parse_query` produces exactly the
decompositions described by the spec: blocks start at an opening brace, end
at the next following closing brace (minimal match, line breaks allowed),
appear in order without overlap, with no missed earlier match; in particular
a nested object is cut at the first inner closing brace. -/
theorem findBlocks_decomposition (s : List Char) (bs : List (List Char)) :
    BlocksDecomp s bs ↔ findBlocks s = bs :=
  ⟨fun h => blocksDecomp_eq h, fun h => h ▸ blocksDecomp_findBlocks s⟩

/-- C6 (witness): a nested object is split at the first inner closing brace. -/
theorem findBlocks_decomposition_w :
    BlocksDecomp ("x\x7b\"a\": \x7b\"b\": 1\x7d\x7d y".toList)
      ["\x7b\"a\": \x7b\"b\": 1\x7d".toList] :=
  (findBlocks_decomposition ("x\x7b\"a\": \x7b\"b\": 1\x7d\x7d y".toList)
    ["\x7b\"a\": \x7b\"b\": 1\x7d".toList]).mpr rfl

/-- C7 (counterexample): a returned filter can carry more than the three
required fields — the parsed dict is returned verbatim, extra keys
included. -/
theorem parse_query_extra_keys_cex :
    parse_query "show homes" (LLMOutcome.response (jarr [jobj
      [("generated_text",
        jstr "\x7b\"attribute\": \"height\", \"operator\": \">\", \"value\": 100, \"note\": \"x\"\x7d")]])) =
      [("attribute", jstr "height"), ("operator", jstr ">"),
       ("value", jnum 100), ("note", jstr "x")] := rfl

/-- C7 (amended): every non-empty result of `parse_query` contains at least
the three keys `attribute`, `operator` and `value`; keys beyond these are
preserved from the parsed block rather than stripped. -/
theorem parse_query_result_has_required_keys (q : String) (out : LLMOutcome)
    (h : parse_query q out ≠ []) : hasAllKeys (parse_query q out) = true := by
  cases out with
  | transportError => exact absurd rfl h
  | response body =>
    cases hg : getGeneratedText body with
    | none => exact absurd (by simp [parse_query, hg]) h
    | some cs =>
      cases hp : processLoop q (findBlocks cs) with
      | found d =>
        rw [parse_query_of_found q body cs d hg hp]
        exact processLoop_found_hasAllKeys q _ d hp
      | raised => exact absurd (parse_query_of_raised q body cs hg hp) h
      | nofilter => exact absurd (by simp [parse_query, hg, hp]) h

/-- C7 (witness): a concrete non-empty result has the three required keys. -/
theorem parse_query_result_has_required_keys_w :
    hasAllKeys (parse_query "w7" (LLMOutcome.response (jarr [jobj
      [("generated_text",
        jstr "\x7b\"attribute\": \"area\", \"operator\": \"<\", \"value\": 9\x7d")]]))) =
      true :=
  parse_query_result_has_required_keys "w7" _ (fun h => nomatch h)

/-- C8 (counterexample): a result whose three fields are all present and
whose value is non-null, but whose `attribute` is the empty string, is
rejected with 400 — the route tests Python truthiness of `attribute` and
`operator`, not mere presence, so the claim's "present" condition for a 200
is wrong. -/
theorem query_buildings_truthiness_cex :
    parse_query "x" (LLMOutcome.response (jarr [jobj
      [("generated_text",
        jstr "\x7b\"attribute\": \"\", \"operator\": \">\", \"value\": 1\x7d")]])) =
      [("attribute", jstr ""), ("operator", jstr ">"), ("value", jnum 1)] ∧
    query_buildings [("query", jstr "x")] (LLMOutcome.response (jarr [jobj
      [("generated_text",
        jstr "\x7b\"attribute\": \"\", \"operator\": \">\", \"value\": 1\x7d")]])) =
      (400, jobj [("error", jstr "Invalid LLM output")]) :=
  ⟨rfl, rfl⟩

/-- C8 (amended): a body without the `query` key is treated as the empty
query; the response is 200 with the filter as body exactly when the
interpreted result's `attribute` and `operator` are truthy (present and
non-empty/non-zero/non-null) and `value` is present and not null, and
otherwise 400 with the fixed error body; the empty dict always fails the
condition. -/
theorem query_buildings_contract (body : List (String × JVal))
    (out : LLMOutcome) (r : List (String × JVal)) :
    (objGet body "query" = none →
      query_buildings body out = respond_filter (parse_query "" out)) ∧
    (∀ s, objGet body "query" = some (jstr s) →
      query_buildings body out = respond_filter (parse_query s out)) ∧
    (okCond r = true → respond_filter r = (200, jobj r)) ∧
    (okCond r = false →
      respond_filter r = (400, jobj [("error", jstr "Invalid LLM output")])) ∧
    okCond [] = false := by
  refine ⟨fun h => ?_, fun s h => ?_, fun h => ?_, fun h => ?_, rfl⟩
  · simp [query_buildings, h]
  · simp [query_buildings, h]
  · simp [respond_filter, h]
  · simp [respond_filter, h]

/-- C8 (witness): a body without `query` and a failing collaborator produce
the 400 error response. -/
theorem query_buildings_contract_w :
    query_buildings [] LLMOutcome.transportError =
      (400, jobj [("error", jstr "Invalid LLM output")]) := by
  have h := query_buildings_contract [] LLMOutcome.transportError
    (parse_query "" LLMOutcome.transportError)
  rw [h.1 rfl]
  exact h.2.2.2.1 rfl

/-- C9: the document parsed at startup is served verbatim by
`get_buildings`, and no sequence of requests (reads or queries) changes the
stored document: load-then-serve equals the original parsed document, with
status 200. -/
theorem get_buildings_round_trip (doc : JVal) (reqs : List Request) :
    runRequests (load_building_data doc) reqs = load_building_data doc ∧
    handle (runRequests (load_building_data doc) reqs) Request.getBuildings =
      (load_building_data doc, 200, doc) := by
  have hstate : ∀ st : ServerState, ∀ rs : List Request, runRequests st rs = st := by
    intro st rs
    induction rs with
    | nil => rfl
    | cons r rs2 ih =>
      cases r with
      | getBuildings => exact ih
      | postQuery b o => exact ih
  exact ⟨hstate _ reqs, by rw [hstate _ reqs]; rfl⟩

/-- C10: when the query mentions "feet" and the first qualifying candidate
has attribute "height" but a string value, the feet multiplication raises a
`TypeError` that the outer handler swallows: `parse_query` returns the empty
dict, and no later candidate — qualifying or not — is ever inspected (the
tail `rest` is arbitrary). -/
theorem parse_query_feet_type_error (q : String) (body : JVal)
    (cs m : List Char) (rest : List (List Char)) (kvs : List (String × JVal))
    (s : String)
    (h1 : getGeneratedText body = some cs)
    (h2 : findBlocks cs = m :: rest)
    (h3 : loadsL m = some (jobj kvs))
    (h4 : hasAllKeys kvs = true)
    (h5 : objGet kvs "attribute" = some (jstr "height"))
    (h6 : objGet kvs "value" = some (jstr s))
    (h7 : containsFeet q = true) :
    parse_query q (LLMOutcome.response body) = [] := by
  have hA : isAttr kvs "height" = true := by
    rw [isAttr_of_objGet kvs "height" h5]
    rfl
  have hf := feetStep_conv_str q kvs s h7 hA h6
  have hp := processLoop_cons_raised q m rest kvs h3 h4 hf
  exact parse_query_of_raised q body cs h1 (by rw [h2]; exact hp)

/-- C10 (witness): a feet query whose first candidate has a string value
yields the empty dict even though a second, fully numeric candidate
follows. -/
theorem parse_query_feet_type_error_w :
    containsFeet "homes above 50 feet" = true ∧
    parse_query "homes above 50 feet" (LLMOutcome.response (jarr [jobj
      [("generated_text",
        jstr "\x7b\"attribute\": \"height\", \"operator\": \">\", \"value\": \"tall\"\x7d and \x7b\"attribute\": \"height\", \"operator\": \">\", \"value\": 15\x7d")]])) =
      [] :=
  ⟨rfl,
    parse_query_feet_type_error "homes above 50 feet"
      (jarr [jobj [("generated_text",
        jstr "\x7b\"attribute\": \"height\", \"operator\": \">\", \"value\": \"tall\"\x7d and \x7b\"attribute\": \"height\", \"operator\": \">\", \"value\": 15\x7d")]])
      ("\x7b\"attribute\": \"height\", \"operator\": \">\", \"value\": \"tall\"\x7d and \x7b\"attribute\": \"height\", \"operator\": \">\", \"value\": 15\x7d".toList)
      ("\x7b\"attribute\": \"height\", \"operator\": \">\", \"value\": \"tall\"\x7d".toList)
      ["\x7b\"attribute\": \"height\", \"operator\": \">\", \"value\": 15\x7d".toList]
      [("attribute", jstr "height"), ("operator", jstr ">"), ("value", jstr "tall")]
      "tall" rfl rfl rfl rfl rfl rfl rfl⟩
